import Mathlib

/-!
# DevSpace command-line entry layer (`cmd/root.go`)

A shallow embedding of the root command of the DevSpace CLI: the root
pre-run hook (silence setup and version notifier), `Execute`, the package
`init` that assembles the command tree, and `initConfig`.

Calls to collaborators (logger, analytics, upgrade check, viper, homedir)
are recorded, in program order, in a trace of `Event`s carried by an explicit
`World` state; what a collaborator answers is a parameter (`Env`).
-/

namespace Devspace

/-! ## Values shared with the collaborators -/

/-- A Go `error` value: its `Error()` text and its `%+v` rendering. -/
structure GoError where
  /-- The text returned by `Error()`. -/
  message : String
  /-- The text produced by formatting the error with `%+v`. -/
  detail : String
  deriving DecidableEq, Repr

/-- The log levels of `logrus`, most severe first. -/
inductive Level where
  | PanicLevel
  | FatalLevel
  | ErrorLevel
  | WarnLevel
  | InfoLevel
  | DebugLevel
  deriving DecidableEq, Repr

/-- An argument handed to a formatting log call. -/
inductive GoValue where
  | str (s : String)
  | err (e : GoError)
  deriving DecidableEq, Repr

/-- The factories of `init`, one constructor per call in the source. -/
inductive Factory where
  | NewAddCmd | NewCleanupCmd | NewConnectCmd | NewCreateCmd | NewListCmd
  | NewRemoveCmd | NewResetCmd | NewSetCmd | NewStatusCmd | NewUseCmd
  | NewUpdateCmd
  | NewInitCmd | NewDevCmd | NewBuildCmd | NewSyncCmd | NewPurgeCmd
  | NewUpgradeCmd | NewDeployCmd | NewEnterCmd | NewLoginCmd | NewAnalyzeCmd
  | NewLogsCmd | NewOpenCmd | NewUICmd | NewRunCmd | NewAttachCmd
  deriving DecidableEq, Repr

/-- A reference to a `flags.GlobalFlags` record (a pointer, compared by
identity). -/
structure GlobalFlagsRef where
  addr : Nat
  deriving DecidableEq, Repr

/-- One call made by the code of `root.go` to a collaborator. -/
inductive Event where
  /-- Call of `log.GetInstance().SetLevel(l)` -/
  | SetLevel (l : Level)
  /-- Call of `upgrade.GetVersion()` -/
  | GetVersion
  /-- Call of `upgrade.CheckForNewerVersion()` -/
  | CheckForNewerVersion
  /-- Call of `semver.NewVersion(s)` -/
  | NewVersion (s : String)
  /-- Call of `a.Compare(b)` on two parsed versions, named by their source strings -/
  | Compare (a b : String)
  /-- Call of `log.Warnf(format, args...)` -/
  | Warnf (format : String) (args : List GoValue)
  /-- Call of `cloudanalytics.ReportPanics()` (the deferred call) -/
  | ReportPanics
  /-- Call of `rootCmd.Execute()` -/
  | RootCmdExecute
  /-- Call of `cloudanalytics.SendCommandEvent(err)` -/
  | SendCommandEvent (err : Option GoError)
  /-- Call of `log.Fatalf(format, args...)` -/
  | Fatalf (format : String) (args : List GoValue)
  /-- Call of `log.Fatal(args...)` -/
  | Fatal (args : List GoValue)
  /-- Call of `rootCmd.PersistentFlags()` -/
  | PersistentFlags
  /-- Call of `flags.SetGlobalFlags(persistentFlags)` -/
  | SetGlobalFlags
  /-- A call of a sub-command factory, with the argument it was given. -/
  | NewCmd (f : Factory) (arg : Option GlobalFlagsRef)
  /-- Call of `rootCmd.AddCommand(c)` with the command built by factory `f` -/
  | AddCommand (f : Factory)
  /-- Call of `cobra.OnInitialize(initConfig)` -/
  | OnInitialize
  /-- Call of `viper.SetConfigFile(p)` -/
  | SetConfigFile (p : String)
  /-- Call of `homedir.Dir()` -/
  | HomedirDir
  /-- Call of `log.Panic(err)` -/
  | Panic (e : GoError)
  /-- Call of `viper.AddConfigPath(p)` -/
  | AddConfigPath (p : String)
  /-- Call of `viper.SetConfigName(n)` -/
  | SetConfigName (n : String)
  /-- Call of `viper.AutomaticEnv()` -/
  | AutomaticEnv
  /-- Call of `viper.ReadInConfig()` -/
  | ReadInConfig
  /-- Call of `viper.ConfigFileUsed()` -/
  | ConfigFileUsed
  /-- Call of `log.Info(args...)` -/
  | Info (args : List GoValue)
  /-- The framework parsed the command line into the flag variables. -/
  | ParseFlags
  /-- The body of the selected command. -/
  | CommandBody
  deriving DecidableEq, Repr

/-- A command node as built by a factory: which factory built it and the
`GlobalFlags` reference the factory was given, if it was given one. -/
structure Command where
  factory : Factory
  globalFlags : Option GlobalFlagsRef
  deriving DecidableEq, Repr

/-- What viper has been told so far. -/
structure Viper where
  configFile : String
  configPaths : List String
  configName : String
  automaticEnv : Bool
  deriving DecidableEq, Repr

/-- The mutable state the code of `root.go` acts on. -/
structure World where
  /-- The collaborator calls made so far, oldest first. -/
  trace : List Event
  /-- The level of the logger returned by `log.GetInstance()`. -/
  logLevel : Level
  /-- The package-level viper instance. -/
  viper : Viper
  /-- The field `rootCmd.Version`. -/
  rootVersion : String
  /-- The package variable `globalFlags` (nil until `init` has run). -/
  globalFlags : Option GlobalFlagsRef
  /-- The immediate children of `rootCmd`, in the order they were added. -/
  commands : List Command
  deriving DecidableEq, Repr

/-- How a piece of code stops. -/
inductive Outcome where
  /-- It returned to its caller. -/
  | returned
  /-- The fatal-log primitive terminated the process. -/
  | terminated
  /-- It panicked. -/
  | panicked
  deriving DecidableEq, Repr

/-- The interface of the semantic-version library used by the pre-run hook:
`semver.NewVersion` (a parsed version or an error) and `Version.Compare`
(-1, 0 or 1). -/
structure SemverLib where
  Version : Type
  NewVersion : String → Except GoError Version
  Compare : Version → Version → Int

/-- What the collaborators answer during one run, and the package-level
variables `globalFlags` and `cfgFile` as left by flag parsing. -/
structure Env where
  /-- The field `globalFlags.Silent`. -/
  Silent : Bool
  /-- The field `globalFlags.Debug`. -/
  Debug : Bool
  /-- The package variable `cfgFile`. -/
  cfgFile : String
  /-- The result of `upgrade.GetVersion()`. -/
  version : String
  /-- The result pair of `upgrade.CheckForNewerVersion()`. -/
  newerVersion : String × Option GoError
  /-- The semantic-version library. -/
  semver : SemverLib
  /-- The result pair of `homedir.Dir()`. -/
  homeDir : String × Option GoError
  /-- The result of `viper.ReadInConfig()`, given what viper was told. -/
  readInConfig : Viper → Option GoError
  /-- The result of `viper.ConfigFileUsed()`, given what viper was told. -/
  configFileUsed : Viper → String

/-- Record one collaborator call. -/
def World.emit (w : World) (e : Event) : World :=
  { w with trace := w.trace ++ [e] }

/-! ## The root pre-run hook -/

/-- The format string of the newer-version warning. -/
def newerVersionFormat : String :=
  "There is a newer version of DevSpace: v%s. Run `devspace upgrade` to upgrade to the newest version.\n"

/-- Call of `log.GetInstance().SetLevel(l)`: the call is recorded and the
logger level changes. -/
def SetLevel (w : World) (l : Level) : World :=
  { w.emit (.SetLevel l) with logLevel := l }

/-- The function literal assigned to `rootCmd.PersistentPreRun`. -/
def PersistentPreRun (env : Env) (w : World) : World :=
  let w := if env.Silent then SetLevel w .FatalLevel else w
  -- Get version of current binary
  let w := w.emit .GetVersion
  let version := env.version
  if version ≠ "" then
    let w := w.emit .CheckForNewerVersion
    let latestStableVersion := env.newerVersion.1
    match env.newerVersion.2 with
    | none =>
      let w := w.emit (.NewVersion version)
      match env.semver.NewVersion version with
      | .ok semverVersion =>
        let w := w.emit (.NewVersion latestStableVersion)
        match env.semver.NewVersion latestStableVersion with
        | .ok semverLatestStableVersion =>
          let w := w.emit (.Compare latestStableVersion version)
          if env.semver.Compare semverLatestStableVersion semverVersion = 1 then
            w.emit (.Warnf newerVersionFormat [.str latestStableVersion])
          else w
        | .error _ => w
      | .error _ => w
    | some _ => w
  else w

/-! ## Execute -/

/-- How the call `rootCmd.Execute()` ends: it returns its error result, or
the command panics, or the command ends the process itself. -/
inductive RunResult where
  | returned (err : Option GoError)
  | panicked
  | exited
  deriving DecidableEq, Repr

/-- The statements of `Execute` up to the call `rootCmd.Execute()`: the
embedded version is stored in `rootCmd.Version`, the panic report is deferred,
and the command tree is entered. -/
def executeEnter (env : Env) (w : World) : World :=
  -- Set version for --version flag
  let w := w.emit .GetVersion
  let w := { w with rootVersion := env.version }
  -- Execute command
  w.emit .RootCmdExecute

/-- The function `Execute`. The run of the command tree, `rootCmd.Execute()`,
is the parameter `run`. The deferred `cloudanalytics.ReportPanics()` runs when
`Execute` returns or panics; it does not run once the fatal-log primitive has
terminated the process. -/
def Execute (env : Env) (run : World → World × RunResult) (w : World) :
    World × Outcome :=
  match run (executeEnter env w) with
  | (w, .returned err) =>
    let w := w.emit (.SendCommandEvent err)
    match err with
    | some e =>
      if env.Debug then
        (w.emit (.Fatalf "%+v" [.err e]), .terminated)
      else
        (w.emit (.Fatal [.err e]), .terminated)
    | none => (w.emit .ReportPanics, .returned)
  | (w, .panicked) => (w.emit .ReportPanics, .panicked)
  | (w, .exited) => (w, .terminated)

/-! ## init -/

/-- The statement `rootCmd.AddCommand(f(globalFlags))` or
`rootCmd.AddCommand(f())`: the factory is called with `arg` and the command it
returns becomes the last child of the root. -/
def addCommand (f : Factory) (arg : Option GlobalFlagsRef) (w : World) : World :=
  let w := w.emit (.NewCmd f arg)
  let w := w.emit (.AddCommand f)
  { w with commands := w.commands ++ [⟨f, arg⟩] }

/-- The package function `init`. The reference returned by
`flags.SetGlobalFlags` is the parameter `gf`. -/
def init (gf : GlobalFlagsRef) (w : World) : World :=
  let w := w.emit .PersistentFlags
  let w := w.emit .SetGlobalFlags
  let w := { w with globalFlags := some gf }
  let globalFlags := w.globalFlags
  -- Add sub commands
  let w := addCommand .NewAddCmd globalFlags w
  let w := addCommand .NewCleanupCmd globalFlags w
  let w := addCommand .NewConnectCmd none w
  let w := addCommand .NewCreateCmd none w
  let w := addCommand .NewListCmd globalFlags w
  let w := addCommand .NewRemoveCmd none w
  let w := addCommand .NewResetCmd none w
  let w := addCommand .NewSetCmd none w
  let w := addCommand .NewStatusCmd none w
  let w := addCommand .NewUseCmd none w
  let w := addCommand .NewUpdateCmd globalFlags w
  -- Add main commands
  let w := addCommand .NewInitCmd none w
  let w := addCommand .NewDevCmd globalFlags w
  let w := addCommand .NewBuildCmd globalFlags w
  let w := addCommand .NewSyncCmd globalFlags w
  let w := addCommand .NewPurgeCmd globalFlags w
  let w := addCommand .NewUpgradeCmd none w
  let w := addCommand .NewDeployCmd globalFlags w
  let w := addCommand .NewEnterCmd globalFlags w
  let w := addCommand .NewLoginCmd none w
  let w := addCommand .NewAnalyzeCmd globalFlags w
  let w := addCommand .NewLogsCmd globalFlags w
  let w := addCommand .NewOpenCmd globalFlags w
  let w := addCommand .NewUICmd none w
  let w := addCommand .NewRunCmd globalFlags w
  let w := addCommand .NewAttachCmd globalFlags w
  w.emit .OnInitialize

/-! ## initConfig -/

/-- The statements of `initConfig` from `viper.AutomaticEnv()` to the end. -/
def initConfigRead (env : Env) (w : World) : World :=
  let w := w.emit .AutomaticEnv
  let w := { w with viper := { w.viper with automaticEnv := true } }
  -- If a config file is found, read it in.
  let w := w.emit .ReadInConfig
  match env.readInConfig w.viper with
  | none =>
    let w := w.emit .ConfigFileUsed
    w.emit (.Info [.str "Using config file:", .str (env.configFileUsed w.viper)])
  | some _ => w

/-- The function `initConfig`. `log.Panic` ends it by a panic. -/
def initConfig (env : Env) (w : World) : World × Outcome :=
  if env.cfgFile ≠ "" then
    -- Use config file from the flag.
    let w := w.emit (.SetConfigFile env.cfgFile)
    let w := { w with viper := { w.viper with configFile := env.cfgFile } }
    (initConfigRead env w, .returned)
  else
    -- Find home directory.
    let w := w.emit .HomedirDir
    let home := env.homeDir.1
    match env.homeDir.2 with
    | some err => (w.emit (.Panic err), .panicked)
    | none =>
      -- Search config in home directory with name ".devspace" (without extension).
      let w := w.emit (.AddConfigPath home)
      let w := { w with viper := { w.viper with configPaths := w.viper.configPaths ++ [home] } }
      let w := w.emit (.SetConfigName ".devspace")
      let w := { w with viper := { w.viper with configName := ".devspace" } }
      (initConfigRead env w, .returned)

/-! ## The command dispatch of the framework -/

/-- What the framework meets while it dispatches one command line, apart from
the hooks of `root.go`. -/
structure Invocation where
  /-- The dispatch ends before any hook with this result: a flag parse error,
  a help or version request, or a command that is not runnable. -/
  stopBeforeHooks : Option (Option GoError)
  /-- The result of the argument validation of the selected command. -/
  validateArgsErr : Option GoError
  /-- The body of the selected command. -/
  body : World → World × RunResult

/-- Modelled from the spec: the dispatch of the command framework
(`Command.execute` of `github.com/spf13/cobra`) is not under `src/`. Section
4.3 has the Config Resolver "invoked automatically once, after flag parsing,
before a command body runs" and the state machine of section 4.4 reads
`FlagsParsed → ConfigResolved → VersionChecked → CommandExecuted`: the
framework parses the flags, then runs the functions registered with
`cobra.OnInitialize` (here `initConfig`), validates the arguments, runs the
persistent pre-run hook inherited from the root, and then the body of the
selected command. -/
def dispatch (env : Env) (inv : Invocation) (w : World) : World × RunResult :=
  let w := w.emit .ParseFlags
  match inv.stopBeforeHooks with
  | some r => (w, .returned r)
  | none =>
    match initConfig env w with
    | (w, .returned) =>
      match inv.validateArgsErr with
      | some e => (w, .returned (some e))
      | none =>
        let w := PersistentPreRun env w
        inv.body (w.emit .CommandBody)
    | (w, _) => (w, .panicked)

/-! ## Message rendering of the formatting log calls -/

/-- The text of one operand: `%s` and `%v` print a string as it is and an
error by `Error()`; `%+v` prints an error in its detailed form. -/
def GoValue.text (plus : Bool) : GoValue → String
  | .str s => s
  | .err e => if plus then e.detail else e.message

/-- The verbs `%s`, `%v` and `%+v` of `fmt.Sprintf`, each consuming the next
operand; every other character is copied. -/
def sprintfChars : List Char → List GoValue → List Char
  | [], _ => []
  | '%' :: 's' :: cs, a :: as => (a.text false).toList ++ sprintfChars cs as
  | '%' :: 'v' :: cs, a :: as => (a.text false).toList ++ sprintfChars cs as
  | '%' :: '+' :: 'v' :: cs, a :: as => (a.text true).toList ++ sprintfChars cs as
  | c :: cs, as => c :: sprintfChars cs as

/-- The function `fmt.Sprintf` on the verbs used in `root.go`. -/
def Sprintf (format : String) (args : List GoValue) : String :=
  String.mk (sprintfChars format.toList args)

/-- Is the operand a string? -/
def GoValue.isStr : GoValue → Bool
  | .str _ => true
  | .err _ => false

/-- The function `fmt.Sprint`: the operands in their default format, with a
space between two operands when neither is a string. -/
def Sprint : List GoValue → String
  | [] => ""
  | [a] => a.text false
  | a :: b :: rest =>
    a.text false ++ (if !a.isStr && !b.isStr then " " else "") ++ Sprint (b :: rest)

/-- The message a log call hands to the logger, for the calls that carry
one. -/
def Event.text : Event → Option String
  | .Warnf format args => some (Sprintf format args)
  | .Fatalf format args => some (Sprintf format args)
  | .Fatal args => some (Sprint args)
  | .Info args => some (Sprint args)
  | .Panic e => some (Sprint [.err e])
  | _ => none

/-! ## Observations on traces -/

/-- Is the event a call of `log.Warnf`? -/
def Event.isWarnf : Event → Bool
  | .Warnf _ _ => true
  | _ => false

/-- Is the event a call of `cloudanalytics.SendCommandEvent`? -/
def Event.isSendCommandEvent : Event → Bool
  | .SendCommandEvent _ => true
  | _ => false

/-- Is the event a call of the fatal-log primitive? -/
def Event.isFatal : Event → Bool
  | .Fatalf _ _ => true
  | .Fatal _ => true
  | _ => false

/-- Is the event a call of `semver.NewVersion`? -/
def Event.isNewVersion : Event → Bool
  | .NewVersion _ => true
  | _ => false

/-- Is the event a call of `SetLevel` on the logger? -/
def Event.isSetLevel : Event → Bool
  | .SetLevel _ => true
  | _ => false

/-- Is the event one of the calls of `initConfig`? -/
def Event.isConfig : Event → Bool
  | .SetConfigFile _ => true
  | .HomedirDir => true
  | .Panic _ => true
  | .AddConfigPath _ => true
  | .SetConfigName _ => true
  | .AutomaticEnv => true
  | .ReadInConfig => true
  | .ConfigFileUsed => true
  | .Info _ => true
  | _ => false

/-- Is the event one of the calls of the root pre-run hook? -/
def Event.isPreRun : Event → Bool
  | .SetLevel _ => true
  | .GetVersion => true
  | .CheckForNewerVersion => true
  | .NewVersion _ => true
  | .Compare _ _ => true
  | .Warnf _ _ => true
  | _ => false

/-- The logger level after the calls of a trace, starting from level `l`. -/
def levelAfter (l : Level) : List Event → Level
  | [] => l
  | .SetLevel l' :: es => levelAfter l' es
  | _ :: es => levelAfter l es

/-- A world in which nothing has happened yet. -/
def World.start : World :=
  { trace := [], logLevel := .InfoLevel,
    viper := { configFile := "", configPaths := [], configName := "config", automaticEnv := false },
    rootVersion := "", globalFlags := none, commands := [] }

/-! ## A model of the semantic-version library -/

/-- A parsed semantic version. -/
structure SemVersion where
  major : Nat
  minor : Nat
  patch : Nat
  pre : String
  metadata : String
  original : String
  deriving DecidableEq, Repr

/-- The value of a run of decimal digits. -/
def digitsValue (ds : List Char) : Nat :=
  ds.foldl (fun n c => 10 * n + (c.toNat - '0'.toNat)) 0

/-- The function `strconv.ParseInt(s, 10, 64)`: an optional sign, then one or
more decimal digits, within the range of a signed 64-bit integer. -/
def parseInt64 (cs : List Char) : Option Int :=
  let (neg, ds) :=
    match cs with
    | '-' :: r => (true, r)
    | '+' :: r => (false, r)
    | _ => (false, cs)
  if ds = [] ∨ ¬ ds.all Char.isDigit then none
  else
    let n := digitsValue ds
    if neg then (if n ≤ 2 ^ 63 then some (-(n : Int)) else none)
    else (if n < 2 ^ 63 then some (n : Int) else none)

/-- An optional `.digits` group: the digits and the rest, or nothing consumed. -/
def dotSegment (cs : List Char) : Option (List Char) × List Char :=
  match cs with
  | '.' :: r =>
    let ds := r.takeWhile Char.isDigit
    if ds = [] then (none, cs) else (some ds, r.dropWhile Char.isDigit)
  | _ => (none, cs)

/-- A character of a pre-release or metadata identifier: `[0-9A-Za-z-]`. -/
def isIdentChar (c : Char) : Bool :=
  c.isAlphanum || c == '-'

/-- Split at every dot. -/
def splitDots : List Char → List (List Char)
  | [] => [[]]
  | c :: cs =>
    match splitDots cs with
    | [] => [[c]]
    | p :: ps => if c = '.' then [] :: p :: ps else (c :: p) :: ps

/-- An optional group of dot-separated identifiers after the mark `m`: the
identifiers as written and the rest, or nothing consumed. -/
def identGroup (m : Char) (cs : List Char) : List Char × List Char :=
  match cs with
  | c :: r =>
    if c = m then
      let body := r.takeWhile (fun x => isIdentChar x || x == '.')
      if (splitDots body).all (fun part => part ≠ []) then
        (body, r.dropWhile (fun x => isIdentChar x || x == '.'))
      else ([], cs)
    else ([], cs)
  | [] => ([], cs)

/-- The error `ErrInvalidSemVer` of the library. -/
def ErrInvalidSemVer : GoError :=
  { message := "Invalid Semantic Version", detail := "Invalid Semantic Version" }

/-- The error of a version segment outside the 64-bit range. -/
def errSegment : GoError :=
  { message := "Error parsing version segment", detail := "Error parsing version segment" }

/-- Modelled from the spec: the semantic-version library
(`github.com/Masterminds/semver`) is an external collaborator that is not
under `src/`; the spec only names "semantic-version parsing". This is
`semver.NewVersion` on the grammar of the library,
`v?MAJOR(.MINOR)?(.PATCH)?(-PRE)?(+META)?` over the whole string, with each
numeric segment a signed 64-bit integer and missing segments zero. -/
def semverNewVersion (v : String) : Except GoError SemVersion :=
  let cs := v.toList
  let cs := match cs with
    | 'v' :: r => r
    | _ => cs
  let maj := cs.takeWhile Char.isDigit
  if maj = [] then .error ErrInvalidSemVer
  else
    let (min, r) := dotSegment (cs.dropWhile Char.isDigit)
    let (pat, r) := dotSegment r
    let (pre, r) := identGroup '-' r
    let (meta, r) := identGroup '+' r
    if r ≠ [] then .error ErrInvalidSemVer
    else
      match parseInt64 maj, parseInt64 (min.getD ['0']), parseInt64 (pat.getD ['0']) with
      | some a, some b, some c =>
        .ok { major := a.toNat, minor := b.toNat, patch := c.toNat,
              pre := String.mk pre, metadata := String.mk meta, original := v }
      | _, _, _ => .error errSegment

/-- The function `compareSegment` of the library. -/
def compareSegment (v o : Nat) : Int :=
  if v < o then -1 else if v > o then 1 else 0

/-- The function `comparePrePart` of the library: numeric identifiers compare
by value and rank below the others, which compare as strings; an absent
identifier ranks below a present one. -/
def comparePrePart (s o : List Char) : Int :=
  if s = o then 0
  else if s = [] then -1
  else if o = [] then 1
  else
    match parseInt64 s, parseInt64 o with
    | none, none => if String.mk o < String.mk s then 1 else -1
    | some _, none => -1
    | none, some _ => 1
    | some si, some oi => if si > oi then 1 else -1

/-- The function `comparePrerelease` of the library on the identifier lists. -/
def comparePreParts : List (List Char) → List (List Char) → Int
  | [], [] => 0
  | s :: ss, [] => if comparePrePart s [] ≠ 0 then comparePrePart s [] else comparePreParts ss []
  | [], o :: os => if comparePrePart [] o ≠ 0 then comparePrePart [] o else comparePreParts [] os
  | s :: ss, o :: os =>
    if comparePrePart s o ≠ 0 then comparePrePart s o else comparePreParts ss os

/-- The method `Version.Compare` of the library: major, minor, patch, then
the pre-release, where a version without pre-release is the greater. -/
def semverCompare (v o : SemVersion) : Int :=
  if compareSegment v.major o.major ≠ 0 then compareSegment v.major o.major
  else if compareSegment v.minor o.minor ≠ 0 then compareSegment v.minor o.minor
  else if compareSegment v.patch o.patch ≠ 0 then compareSegment v.patch o.patch
  else if v.pre = "" ∧ o.pre = "" then 0
  else if v.pre = "" then 1
  else if o.pre = "" then -1
  else comparePreParts (splitDots v.pre.toList) (splitDots o.pre.toList)

/-- The library model as a `SemverLib`. -/
def semverModel : SemverLib :=
  { Version := SemVersion, NewVersion := semverNewVersion, Compare := semverCompare }

/-- The calls a piece of code added to the trace: what follows the first
`n` events. -/
def addedSince (n : Nat) (w : World) : List Event :=
  w.trace.drop n

/-- An environment for the version notifier with the library model, the
given embedded version and the given answer of the upgrade check. -/
def notifierEnv (silent : Bool) (current : String) (latest : String × Option GoError) : Env :=
  { Silent := silent, Debug := false, cfgFile := "", version := current,
    newerVersion := latest, semver := semverModel, homeDir := ("/home/dev", none),
    readInConfig := fun _ => none, configFileUsed := fun v => v.configFile }

/-- The condition under which the spec has the version notifier warn: the
embedded version is not empty, the query for the latest version succeeded, both
strings parse as semantic versions, and the latest is strictly greater than the
current one. -/
def warningDue (env : Env) : Prop :=
  env.version ≠ "" ∧ env.newerVersion.2 = none ∧
    ∃ cur lat, env.semver.NewVersion env.version = .ok cur ∧
      env.semver.NewVersion env.newerVersion.1 = .ok lat ∧
      env.semver.Compare lat cur = 1

/-- The `log.Warnf` calls the pre-run hook makes from world `w`. -/
def warnings (env : Env) (w : World) : List Event :=
  (addedSince w.trace.length (PersistentPreRun env w)).filter Event.isWarnf

/-- The texts of the warnings the pre-run hook issues from world `w`. -/
def warningTexts (env : Env) (w : World) : List String :=
  (warnings env w).filterMap Event.text

/-- Is the event one of the calls of the home-directory search of
`initConfig`? -/
def Event.isHomeSearch : Event → Bool
  | .HomedirDir => true
  | .AddConfigPath _ => true
  | .SetConfigName _ => true
  | _ => false

/-- Is the event a call of `log.Info`? -/
def Event.isInfo : Event → Bool
  | .Info _ => true
  | _ => false

/-- Is the event a call of the factory `f`? -/
def Event.isNewCmdOf (f : Factory) : Event → Bool
  | .NewCmd g _ => f = g
  | _ => false

/-- What `Execute` does after the command tree returned `err`: the fatal call
for an error, the deferred panic report for none. -/
def afterReport (debug : Bool) : Option GoError → List Event
  | none => [.ReportPanics]
  | some e => if debug then [.Fatalf "%+v" [.err e]] else [.Fatal [.err e]]

/-- A command body that returns the given error and calls no collaborator. -/
def bodyReturning (err : Option GoError) (w : World) : World × RunResult :=
  (w, .returned err)

/-- An error value for the examples. -/
def sampleError : GoError :=
  { message := "deploy failed", detail := "deploy failed\nmain.deploy\n\tcmd/deploy.go:42" }

/-- An environment for `initConfig` and `Execute` with the given flags and
home-directory answer; the config read succeeds when `found`. -/
def configEnv (debug : Bool) (cfgFile : String) (home : String × Option GoError)
    (found : Bool) : Env :=
  { Silent := false, Debug := debug, cfgFile := cfgFile, version := "",
    newerVersion := ("", none), semver := semverModel, homeDir := home,
    readInConfig := fun _ => if found then none else some ⟨"Not Found", "Not Found"⟩,
    configFileUsed := fun v => v.configFile }

/-- The children `init` attaches to the root for the `GlobalFlags` reference
`gf`, in source order, each with the argument its factory is called with. -/
def registeredCommands (gf : GlobalFlagsRef) : List Command :=
  [⟨.NewAddCmd, some gf⟩, ⟨.NewCleanupCmd, some gf⟩, ⟨.NewConnectCmd, none⟩,
   ⟨.NewCreateCmd, none⟩, ⟨.NewListCmd, some gf⟩, ⟨.NewRemoveCmd, none⟩,
   ⟨.NewResetCmd, none⟩, ⟨.NewSetCmd, none⟩, ⟨.NewStatusCmd, none⟩,
   ⟨.NewUseCmd, none⟩, ⟨.NewUpdateCmd, some gf⟩,
   ⟨.NewInitCmd, none⟩, ⟨.NewDevCmd, some gf⟩, ⟨.NewBuildCmd, some gf⟩,
   ⟨.NewSyncCmd, some gf⟩, ⟨.NewPurgeCmd, some gf⟩, ⟨.NewUpgradeCmd, none⟩,
   ⟨.NewDeployCmd, some gf⟩, ⟨.NewEnterCmd, some gf⟩, ⟨.NewLoginCmd, none⟩,
   ⟨.NewAnalyzeCmd, some gf⟩, ⟨.NewLogsCmd, some gf⟩, ⟨.NewOpenCmd, some gf⟩,
   ⟨.NewUICmd, none⟩, ⟨.NewRunCmd, some gf⟩, ⟨.NewAttachCmd, some gf⟩]

/-- The factories whose call in `init` passes `globalFlags`. -/
def takesGlobalFlags : Factory → Bool
  | .NewAddCmd | .NewCleanupCmd | .NewListCmd | .NewUpdateCmd | .NewDevCmd
  | .NewBuildCmd | .NewSyncCmd | .NewPurgeCmd | .NewDeployCmd | .NewEnterCmd
  | .NewAnalyzeCmd | .NewLogsCmd | .NewOpenCmd | .NewRunCmd | .NewAttachCmd => true
  | _ => false

/-- The factories called by `init`, in source order. -/
def registeredFactories : List Factory :=
  [.NewAddCmd, .NewCleanupCmd, .NewConnectCmd, .NewCreateCmd, .NewListCmd,
   .NewRemoveCmd, .NewResetCmd, .NewSetCmd, .NewStatusCmd, .NewUseCmd,
   .NewUpdateCmd,
   .NewInitCmd, .NewDevCmd, .NewBuildCmd, .NewSyncCmd, .NewPurgeCmd,
   .NewUpgradeCmd, .NewDeployCmd, .NewEnterCmd, .NewLoginCmd, .NewAnalyzeCmd,
   .NewLogsCmd, .NewOpenCmd, .NewUICmd, .NewRunCmd, .NewAttachCmd]

/-- The calls `init` makes for the `GlobalFlags` reference `gf`. -/
def initEvents (gf : GlobalFlagsRef) : List Event :=
  Event.PersistentFlags :: Event.SetGlobalFlags ::
    ((registeredCommands gf).flatMap
      (fun c => [Event.NewCmd c.factory c.globalFlags, Event.AddCommand c.factory])
      ++ [Event.OnInitialize])

/-- Do all calls satisfying `p` come before all calls satisfying `q`? True
when no `q` call is followed by a `p` call. -/
def orderedBefore (p q : Event → Bool) : List Event → Bool
  | [] => true
  | e :: es => (!q e || es.all (fun x => !p x)) && orderedBefore p q es

/-- An invocation that reaches the command body, which returns `err`. -/
def plainInvocation (err : Option GoError) : Invocation :=
  { stopBeforeHooks := none, validateArgsErr := none, body := bodyReturning err }

/-! ## Theorems -/

/-- The root pre-run hook only appends to the trace, and what it appends does
not depend on the world it starts from. -/
theorem PersistentPreRun_trace (env : Env) (w : World) :
    (PersistentPreRun env w).trace = w.trace ++ (PersistentPreRun env World.start).trace := by
  unfold PersistentPreRun
  cases hs : env.Silent <;> by_cases hv : env.version = "" <;>
    rcases hn : env.newerVersion.2 with _ | e <;>
    rcases ha : env.semver.NewVersion env.version with ea | a <;>
    rcases hb : env.semver.NewVersion env.newerVersion.1 with eb | b <;>
    simp [hv, hn, ha, hb, SetLevel, World.emit, World.start] <;>
    split_ifs <;> simp

/-- Claim C3: when `GetVersion` returns the empty string the pre-run hook adds
to the trace only the optional `SetLevel` and the `GetVersion` call: no call
of `CheckForNewerVersion`, no `semver.NewVersion`, no `Compare` and no
`log.Warnf`, whatever the upgrade check and the library would have answered. -/
theorem C3_empty_version_skips_check (env : Env) (w : World) (h : env.version = "") :
    (PersistentPreRun env w).trace =
        w.trace ++ (if env.Silent then [Event.SetLevel .FatalLevel] else []) ++ [Event.GetVersion]
      ∧ (addedSince w.trace.length (PersistentPreRun env w)).count .CheckForNewerVersion = 0
      ∧ (addedSince w.trace.length (PersistentPreRun env w)).countP Event.isNewVersion = 0
      ∧ (addedSince w.trace.length (PersistentPreRun env w)).countP Event.isWarnf = 0 := by
  unfold PersistentPreRun addedSince
  cases hs : env.Silent <;>
    simp [h, SetLevel, World.emit, Event.isNewVersion, Event.isWarnf]

/-- Witness of C3: an empty embedded version while the upgrade check would
report "9.9.9". -/
theorem C3_empty_version_skips_check_witness :
    (notifierEnv true "" ("9.9.9", none)).version = ""
      ∧ (PersistentPreRun (notifierEnv true "" ("9.9.9", none)) World.start).trace =
          [Event.SetLevel .FatalLevel, Event.GetVersion] := by
  refine ⟨rfl, ?_⟩
  have h := (C3_empty_version_skips_check (notifierEnv true "" ("9.9.9", none)) World.start rfl).1
  simpa [notifierEnv, World.start] using h

/-- Characters other than `%` are copied by `sprintfChars`. -/
theorem sprintfChars_plain (pre rest : List Char) (args : List GoValue) (h : '%' ∉ pre) :
    sprintfChars (pre ++ rest) args = pre ++ sprintfChars rest args := by
  induction pre with
  | nil => simp
  | cons c cs ih =>
    have hc : c ≠ '%' := fun e => h (by simp [e])
    have hcs : '%' ∉ cs := fun e => h (by simp [e])
    rw [List.cons_append, sprintfChars]
    · rw [ih hcs]; simp
    all_goals (intros; simp_all)

/-- A format without `%` is printed as it is. -/
theorem sprintfChars_plain_all (l : List Char) (args : List GoValue) (h : '%' ∉ l) :
    sprintfChars l args = l := by
  have := sprintfChars_plain l [] args h
  simpa [sprintfChars] using this

/-- The text of the newer-version warning for a given latest version. -/
theorem Sprintf_newerVersionFormat (latest : String) :
    Sprintf newerVersionFormat [.str latest] =
      "There is a newer version of DevSpace: v" ++ latest ++
        ". Run `devspace upgrade` to upgrade to the newest version.\n" := by
  have : newerVersionFormat.toList =
      "There is a newer version of DevSpace: v".toList ++
        '%' :: 's' :: ". Run `devspace upgrade` to upgrade to the newest version.\n".toList := by
    decide
  unfold Sprintf
  rw [this, sprintfChars_plain _ _ _ (by decide), sprintfChars,
    sprintfChars_plain_all _ _ (by decide)]
  apply String.ext
  simp [GoValue.text]

/-- The warnings of the pre-run hook, case by case. -/
theorem warnings_cases (env : Env) (w : World) :
    (warningDue env ∧
        warnings env w = [Event.Warnf newerVersionFormat [.str env.newerVersion.1]])
      ∨ (¬ warningDue env ∧ warnings env w = []) := by
  unfold warnings addedSince warningDue PersistentPreRun
  cases hs : env.Silent <;> by_cases hv : env.version = "" <;>
    rcases hn : env.newerVersion.2 with _ | e <;>
    rcases ha : env.semver.NewVersion env.version with ea | a <;>
    rcases hb : env.semver.NewVersion env.newerVersion.1 with eb | b <;>
    simp [hv, hn, ha, hb, SetLevel, World.emit, Event.isWarnf] <;>
    split_ifs <;> simp_all [Event.isWarnf]

/-- Claim C4: for every embedded version, every answer of the upgrade check
and every semantic-version library, the pre-run hook calls `log.Warnf` once,
with the latest version as operand, when the embedded version is not empty,
the query succeeded, both strings parse and the latest compares strictly
greater; in every other case it calls it zero times. The hook is a total
function to a world: it returns and has no error result. The text of the
warning names the latest version and `devspace upgrade`. With the library
model and current "1.2.0": latest "1.3.0" gives the one warning, latest
"1.2.0", "1.1.0" or "not-a-version" gives none, as do an unparseable current
version and a failed query. -/
theorem C4_warning_iff_newer_version :
    (∀ (env : Env) (w : World),
        (warnings env w = [Event.Warnf newerVersionFormat [.str env.newerVersion.1]]
          ∨ warnings env w = [])
        ∧ ((warnings env w).length = 1 ↔ warningDue env)
        ∧ ((warnings env w).length = 0 ↔ ¬ warningDue env))
      ∧ (∀ latest : String,
          Event.text (.Warnf newerVersionFormat [.str latest]) =
            some ("There is a newer version of DevSpace: v" ++ latest ++
              ". Run `devspace upgrade` to upgrade to the newest version.\n"))
      ∧ (∀ s : Bool, warningTexts (notifierEnv s "1.2.0" ("1.3.0", none)) World.start =
          ["There is a newer version of DevSpace: v1.3.0. Run `devspace upgrade` to upgrade to the newest version.\n"])
      ∧ (∀ s : Bool, warningTexts (notifierEnv s "1.2.0" ("1.2.0", none)) World.start = [])
      ∧ (∀ s : Bool, warningTexts (notifierEnv s "1.2.0" ("1.1.0", none)) World.start = [])
      ∧ (∀ s : Bool, warningTexts (notifierEnv s "1.2.0" ("not-a-version", none)) World.start = [])
      ∧ (∀ s : Bool, warningTexts (notifierEnv s "not-a-version" ("1.3.0", none)) World.start = [])
      ∧ (∀ s : Bool, warningTexts (notifierEnv s "1.2.0"
          ("1.3.0", some ⟨"timeout", "timeout"⟩)) World.start = []) := by
  refine ⟨?_, ?_, ?_, ?_, ?_, ?_, ?_, ?_⟩
  · intro env w
    rcases warnings_cases env w with ⟨hd, hw⟩ | ⟨hd, hw⟩
    · simp [hw, hd]
    · simp [hw, hd]
  · intro latest
    simp [Event.text, Sprintf_newerVersionFormat]
  all_goals (intro s; cases s <;> decide)

/-- Claim C1: whatever error `err` (nil or not) the run of the command tree
returns and whatever the debug flag, `Execute` calls `SendCommandEvent` exactly
once, with `err`: the call is the first thing after the run, the calls that
follow it (the fatal call or the deferred panic report) are not
`SendCommandEvent`, and before the run `Execute` calls only `GetVersion`. -/
theorem C1_send_command_event_once (env : Env) (run : World → World × RunResult)
    (w w' : World) (err : Option GoError)
    (h : run (executeEnter env w) = (w', .returned err)) :
    (executeEnter env w).trace = w.trace ++ [Event.GetVersion, Event.RootCmdExecute]
      ∧ (Execute env run w).1.trace =
          w'.trace ++ Event.SendCommandEvent err :: afterReport env.Debug err
      ∧ (addedSince w'.trace.length (Execute env run w).1).filter Event.isSendCommandEvent =
          [Event.SendCommandEvent err]
      ∧ (afterReport env.Debug err).countP Event.isSendCommandEvent = 0 := by
  unfold Execute addedSince
  rw [h]
  rcases err with _ | e <;> cases hd : env.Debug <;>
    simp [executeEnter, afterReport, World.emit, Event.isSendCommandEvent]

/-- Witness of C1: a command body returning an error, debug unset. -/
theorem C1_send_command_event_once_witness :
    (Execute (configEnv false "" ("/home/dev", none) true)
        (bodyReturning (some sampleError)) World.start).1.trace =
      [Event.GetVersion, Event.RootCmdExecute, Event.SendCommandEvent (some sampleError),
        Event.Fatal [.err sampleError]] := by
  have h := (C1_send_command_event_once (configEnv false "" ("/home/dev", none) true)
    (bodyReturning (some sampleError)) World.start _ (some sampleError) rfl).2.1
  simpa [executeEnter, afterReport, World.emit, World.start, configEnv] using h

/-- Claim C2: when the run of the command tree returns `err`, `Execute` ends
in the fatal-log primitive exactly when `err` is not nil. For nil it returns
and makes no fatal call. For an error with debug set the fatal call is
`log.Fatalf("%+v", err)`, whose text is the detailed rendering of the error;
with debug unset it is `log.Fatal(err)`, whose text is the message of the
error. The outcome does not depend on the debug flag. -/
theorem C2_fatal_iff_error (env : Env) (run : World → World × RunResult)
    (w w' : World) (err : Option GoError)
    (h : run (executeEnter env w) = (w', .returned err)) :
    ((Execute env run w).2 = .terminated ↔ err ≠ none)
      ∧ ((Execute env run w).2 = (if err = none then Outcome.returned else Outcome.terminated))
      ∧ (err = none →
          (addedSince w'.trace.length (Execute env run w).1).countP Event.isFatal = 0)
      ∧ (∀ e, err = some e → env.Debug = true →
          (addedSince w'.trace.length (Execute env run w).1).filter Event.isFatal =
              [Event.Fatalf "%+v" [.err e]]
            ∧ Event.text (.Fatalf "%+v" [.err e]) = some e.detail)
      ∧ (∀ e, err = some e → env.Debug = false →
          (addedSince w'.trace.length (Execute env run w).1).filter Event.isFatal =
              [Event.Fatal [.err e]]
            ∧ Event.text (.Fatal [.err e]) = some e.message) := by
  have hfmt : ∀ e : GoError, Sprintf "%+v" [.err e] = e.detail := by
    intro e
    have : ("%+v" : String).toList = ['%', '+', 'v'] := by decide
    unfold Sprintf
    rw [this]
    simp [sprintfChars, GoValue.text]
  unfold Execute addedSince
  rw [h]
  rcases err with _ | e <;> cases hd : env.Debug <;>
    simp [World.emit, Event.isFatal, Event.text, Sprint, GoValue.text, hfmt]

/-- Witness of C2: a command body returning an error, debug set. -/
theorem C2_fatal_iff_error_witness :
    (Execute (configEnv true "" ("/home/dev", none) true)
        (bodyReturning (some sampleError)) World.start).2 = .terminated := by
  have h := (C2_fatal_iff_error (configEnv true "" ("/home/dev", none) true)
    (bodyReturning (some sampleError)) World.start _ (some sampleError) rfl).1
  exact h.2 (by simp)

/-- Calls other than `SetLevel` leave the logger level as it is. -/
theorem levelAfter_of_no_SetLevel (l : Level) (es : List Event)
    (h : ∀ e ∈ es, e.isSetLevel = false) : levelAfter l es = l := by
  induction es with
  | nil => rfl
  | cons e es ih =>
    have he : e.isSetLevel = false := h e (by simp)
    have hes : ∀ x ∈ es, x.isSetLevel = false := fun x hx => h x (by simp [hx])
    cases e <;> simp_all [levelAfter, Event.isSetLevel]

/-- What the pre-run hook adds to the trace: the `SetLevel` call when silent,
then `GetVersion`, then calls none of which is `SetLevel`. -/
theorem PersistentPreRun_added (env : Env) (w : World) :
    ∃ rest, addedSince w.trace.length (PersistentPreRun env w) =
        (if env.Silent then [Event.SetLevel .FatalLevel] else []) ++ Event.GetVersion :: rest
      ∧ (∀ e ∈ rest, e.isSetLevel = false)
      ∧ (∀ e ∈ rest, e.isPreRun = true) := by
  unfold addedSince PersistentPreRun
  cases hs : env.Silent <;> by_cases hv : env.version = "" <;>
    rcases hn : env.newerVersion.2 with _ | e <;>
    rcases ha : env.semver.NewVersion env.version with ea | a <;>
    rcases hb : env.semver.NewVersion env.newerVersion.1 with eb | b <;>
    simp [hv, hn, ha, hb, SetLevel, World.emit] <;>
    (try split_ifs) <;> simp [Event.isSetLevel, Event.isPreRun]

/-- Claim C10: the pre-run hook sets the logger to the fatal level exactly
when the silent flag is set, as its first call, before `GetVersion`,
`CheckForNewerVersion` and `log.Warnf`; so at each of these calls, and at the
end of the hook, the logger is at the fatal level in silent mode and at the
level it had before the hook otherwise. -/
theorem C10_silence_before_notifier (env : Env) (w : World) :
    (PersistentPreRun env w).logLevel = (if env.Silent then Level.FatalLevel else w.logLevel)
      ∧ ((addedSince w.trace.length (PersistentPreRun env w)).filter Event.isSetLevel =
          if env.Silent then [Event.SetLevel .FatalLevel] else [])
      ∧ (∃ rest, addedSince w.trace.length (PersistentPreRun env w) =
          (if env.Silent then [Event.SetLevel .FatalLevel] else []) ++ Event.GetVersion :: rest
          ∧ ∀ e ∈ rest, e.isSetLevel = false)
      ∧ (∀ before e after, addedSince w.trace.length (PersistentPreRun env w) =
            before ++ e :: after →
          (e = Event.GetVersion ∨ e = Event.CheckForNewerVersion ∨ e.isWarnf = true) →
          levelAfter w.logLevel before =
            (if env.Silent then Level.FatalLevel else w.logLevel)) := by
  obtain ⟨rest, hadd, hrest, -⟩ := PersistentPreRun_added env w
  refine ⟨?_, ?_, ⟨rest, hadd, hrest⟩, ?_⟩
  · unfold PersistentPreRun
    cases hs : env.Silent <;> by_cases hv : env.version = "" <;>
      rcases hn : env.newerVersion.2 with _ | e <;>
      rcases ha : env.semver.NewVersion env.version with ea | a <;>
      rcases hb : env.semver.NewVersion env.newerVersion.1 with eb | b <;>
      simp [hv, hn, ha, hb, SetLevel, World.emit] <;>
      split_ifs <;> simp
  · rw [hadd]
    have hf : rest.filter Event.isSetLevel = [] := by
      rw [List.filter_eq_nil_iff]
      intro e he
      simp [hrest e he]
    cases hs : env.Silent <;> simp [List.filter_cons, Event.isSetLevel, hf]
  · intro before e after hsplit he
    rw [hadd] at hsplit
    have hne : e.isSetLevel = false := by
      rcases he with rfl | rfl | h
      · rfl
      · rfl
      · cases e <;> simp_all [Event.isWarnf, Event.isSetLevel]
    cases hs : env.Silent
    · simp only [hs] at hsplit ⊢
      have hall : ∀ x ∈ before, x.isSetLevel = false := by
        intro x hx
        have hx' : x ∈ Event.GetVersion :: rest := by
          have : x ∈ before ++ e :: after := by simp [hx]
          simpa [← hsplit] using this
        rcases List.mem_cons.1 hx' with rfl | hx''
        · rfl
        · exact hrest x hx''
      simpa using levelAfter_of_no_SetLevel w.logLevel before hall
    · simp only [hs] at hsplit ⊢
      cases before with
      | nil =>
        simp at hsplit
        rw [← hsplit.1] at hne
        simp [Event.isSetLevel] at hne
      | cons b bs =>
        simp at hsplit
        obtain ⟨hb, hrest'⟩ := hsplit
        subst hb
        have hall : ∀ x ∈ bs, x.isSetLevel = false := by
          intro x hx
          have hx' : x ∈ Event.GetVersion :: rest := by
            have : x ∈ bs ++ e :: after := by simp [hx]
            simpa [← hrest'] using this
          rcases List.mem_cons.1 hx' with rfl | hx''
          · rfl
          · exact hrest x hx''
        simpa [levelAfter] using levelAfter_of_no_SetLevel .FatalLevel bs hall

/-- Claim C5: with a non-empty explicit path `cfgFile`, `initConfig` calls
`viper.SetConfigFile(cfgFile)` first and once, makes no call of `homedir.Dir`,
`viper.AddConfigPath` or `viper.SetConfigName`, and leaves viper with exactly
that path as config file and with its search paths and config name untouched:
the config read sees no home-directory candidate. -/
theorem C5_explicit_path_only (env : Env) (w : World) (h : env.cfgFile ≠ "") :
    (∃ rest, addedSince w.trace.length (initConfig env w).1 =
          Event.SetConfigFile env.cfgFile :: Event.AutomaticEnv :: Event.ReadInConfig :: rest
        ∧ ∀ e ∈ rest, e = Event.ConfigFileUsed ∨ e.isInfo = true)
      ∧ (addedSince w.trace.length (initConfig env w).1).countP Event.isHomeSearch = 0
      ∧ (initConfig env w).1.viper =
          { w.viper with configFile := env.cfgFile, automaticEnv := true }
      ∧ (initConfig env w).2 = .returned := by
  unfold initConfig initConfigRead addedSince
  rcases hr : env.readInConfig
      { w.viper with configFile := env.cfgFile, automaticEnv := true } with _ | e <;>
    simp [h, hr, World.emit, Event.isHomeSearch, Event.isInfo]

/-- Witness of C5: the explicit path "/etc/devspace.yaml" while a home
directory is available. -/
theorem C5_explicit_path_only_witness :
    (initConfig (configEnv false "/etc/devspace.yaml" ("/home/dev", none) true)
        World.start).1.viper.configFile = "/etc/devspace.yaml"
      ∧ (initConfig (configEnv false "/etc/devspace.yaml" ("/home/dev", none) true)
        World.start).1.viper.configPaths = [] := by
  have h := (C5_explicit_path_only (configEnv false "/etc/devspace.yaml" ("/home/dev", none) true)
    World.start (by decide)).2.2.1
  rw [h]
  exact ⟨rfl, rfl⟩

/-- Claim C6: with no explicit path and a failing home-directory lookup,
`initConfig` panics right after the lookup: it adds to the trace only
`homedir.Dir` and `log.Panic(err)`, so no `AddConfigPath`, `SetConfigName`,
`AutomaticEnv` or `ReadInConfig`, and viper is left as it was. Conversely
`initConfig` panics only when the explicit path is empty and the lookup
failed. -/
theorem C6_home_failure_panics (env : Env) (w : World) :
    (∀ err, env.cfgFile = "" → env.homeDir.2 = some err →
        (initConfig env w).2 = .panicked
          ∧ addedSince w.trace.length (initConfig env w).1 =
              [Event.HomedirDir, Event.Panic err]
          ∧ (initConfig env w).1.viper = w.viper)
      ∧ ((initConfig env w).2 = .panicked ↔
          (env.cfgFile = "" ∧ ∃ err, env.homeDir.2 = some err))
      ∧ ((initConfig env w).2 ≠ .panicked → (initConfig env w).2 = .returned) := by
  unfold initConfig addedSince
  by_cases hc : env.cfgFile = "" <;> rcases hh : env.homeDir.2 with _ | e <;>
    simp [hc, hh, World.emit]

/-- Witness of C6: no explicit path, and the home-directory lookup fails. -/
theorem C6_home_failure_panics_witness :
    initConfig (configEnv false "" ("", some ⟨"$HOME is not defined", "$HOME is not defined"⟩) true)
        World.start =
      ({ World.start with
          trace := [Event.HomedirDir,
            Event.Panic ⟨"$HOME is not defined", "$HOME is not defined"⟩] },
        .panicked) := by
  have h := (C6_home_failure_panics
    (configEnv false "" ("", some ⟨"$HOME is not defined", "$HOME is not defined"⟩) true)
    World.start).1 _ rfl rfl
  exact Prod.ext (by decide) h.1

/-- Claim C7: once the config location is resolved (an explicit path, or a
home directory that was found), `initConfig` returns whatever
`viper.ReadInConfig` answers, and it calls `log.Info("Using config file:", …)`
once when the read returned no error and not at all when it returned one. -/
theorem C7_config_read_never_aborts (env : Env) (w : World)
    (h : env.cfgFile ≠ "" ∨ env.homeDir.2 = none) :
    (initConfig env w).2 = .returned
      ∧ (addedSince w.trace.length (initConfig env w).1).count .ReadInConfig = 1
      ∧ (env.readInConfig (initConfig env w).1.viper = none →
          (addedSince w.trace.length (initConfig env w).1).filter Event.isInfo =
            [Event.Info [.str "Using config file:",
              .str (env.configFileUsed (initConfig env w).1.viper)]])
      ∧ (env.readInConfig (initConfig env w).1.viper ≠ none →
          (addedSince w.trace.length (initConfig env w).1).filter Event.isInfo = []) := by
  unfold initConfig initConfigRead addedSince
  by_cases hc : env.cfgFile = ""
  · have hh : env.homeDir.2 = none := by
      rcases h with h | h
      · exact absurd hc h
      · exact h
    rcases hr : env.readInConfig
        { w.viper with configPaths := w.viper.configPaths ++ [env.homeDir.1],
                       configName := ".devspace", automaticEnv := true } with _ | e <;>
      simp [hc, hh, hr, World.emit, Event.isInfo]
  · rcases hr : env.readInConfig
        { w.viper with configFile := env.cfgFile, automaticEnv := true } with _ | e <;>
      simp [hc, hr, World.emit, Event.isInfo]

/-- Witness of C7: a home directory without config file: the read reports
"Not Found", `initConfig` returns and logs nothing. -/
theorem C7_config_read_never_aborts_witness :
    (initConfig (configEnv false "" ("/home/dev", none) false) World.start).2 = .returned
      ∧ (addedSince 0 (initConfig (configEnv false "" ("/home/dev", none) false)
          World.start).1).filter Event.isInfo = [] := by
  have h := C7_config_read_never_aborts (configEnv false "" ("/home/dev", none) false)
    World.start (Or.inr rfl)
  exact ⟨h.1, h.2.2.2 (by decide)⟩

/-- What one `AddCommand` statement does to a world. -/
theorem addCommand_eq (f : Factory) (arg : Option GlobalFlagsRef) (w : World) :
    addCommand f arg w =
      { w with trace := w.trace ++ [Event.NewCmd f arg, Event.AddCommand f],
               commands := w.commands ++ [⟨f, arg⟩] } := by
  simp [addCommand, World.emit]

set_option maxRecDepth 4000 in
/-- What `init` does to a world. -/
theorem init_result (gf : GlobalFlagsRef) (w : World) :
    (init gf w).globalFlags = some gf
      ∧ (init gf w).commands = w.commands ++ registeredCommands gf
      ∧ (init gf w).trace = w.trace ++ initEvents gf := by
  refine ⟨?_, ?_, ?_⟩
  · simp only [init, addCommand_eq, World.emit]
  · simp only [init, addCommand_eq, World.emit, List.append_assoc, List.cons_append,
      List.nil_append]
    rfl
  · simp only [init, addCommand_eq, World.emit, List.append_assoc, List.cons_append,
      List.nil_append]
    rfl

/-- Refutation of C9 as stated: with the reference at address 1, the child
built by `NewConnectCmd` was not given the `GlobalFlags` instance, so not every
child of the root comes from a factory called with it. -/
theorem C9_counterexample :
    ¬ (∀ c ∈ (init ⟨1⟩ World.start).commands, c.globalFlags = some ⟨1⟩) := by
  decide

/-- The factories of the registered commands do not depend on the reference. -/
theorem registeredCommands_factories (gf : GlobalFlagsRef) :
    (registeredCommands gf).map Command.factory = registeredFactories := rfl

/-- Each registered command carries the reference exactly when its factory
takes one. -/
theorem registeredCommands_eq_map (gf : GlobalFlagsRef) :
    registeredCommands gf = registeredFactories.map
      (fun f => ⟨f, if takesGlobalFlags f then some gf else none⟩) := rfl

/-- Claim C9, amended: `init` calls `SetGlobalFlags` once and keeps the one
reference it returns; it calls each of the 26 factories exactly once and adds
the command of each exactly once, so the root gets 26 children with pairwise
different factories; the 15 factories that take an argument are all given
that same reference, and the other 11 are called without argument. -/
theorem C9_one_instance_each_factory_once (gf : GlobalFlagsRef) (w : World) :
    (init gf w).globalFlags = some gf
      ∧ (addedSince w.trace.length (init gf w)).count .SetGlobalFlags = 1
      ∧ (init gf w).commands = w.commands ++ registeredCommands gf
      ∧ (registeredCommands gf).length = 26
      ∧ ((registeredCommands gf).map Command.factory).Nodup
      ∧ (∀ f : Factory,
          (addedSince w.trace.length (init gf w)).countP (Event.isNewCmdOf f) = 1
            ∧ (addedSince w.trace.length (init gf w)).count (.AddCommand f) = 1
            ∧ ((registeredCommands gf).map Command.factory).count f = 1)
      ∧ (∀ c ∈ registeredCommands gf,
          c.globalFlags = (if takesGlobalFlags c.factory then some gf else none))
      ∧ ((registeredCommands gf).filter (fun c => takesGlobalFlags c.factory)).length = 15 := by
  obtain ⟨h1, h2, h3⟩ := init_result gf w
  have hadd : addedSince w.trace.length (init gf w) = initEvents gf := by
    simp [addedSince, h3]
  refine ⟨h1, ?_, h2, rfl, ?_, ?_, ?_, rfl⟩
  · rw [hadd]; rfl
  · rw [registeredCommands_factories]; decide
  · intro f
    rw [hadd, registeredCommands_factories]
    cases f <;> exact ⟨rfl, rfl, rfl⟩
  · intro c hc
    rw [registeredCommands_eq_map] at hc
    obtain ⟨f, -, rfl⟩ := List.mem_map.1 hc
    rfl

/-- What `initConfig` adds to the trace: calls of the config resolver only;
when the config location is resolved it returns and the config read is among
its calls. -/
theorem initConfig_added (env : Env) (w : World) :
    ∃ cfg, (initConfig env w).1.trace = w.trace ++ cfg
      ∧ (∀ e ∈ cfg, e.isConfig = true)
      ∧ ((env.cfgFile ≠ "" ∨ env.homeDir.2 = none) →
          (initConfig env w).2 = .returned ∧ Event.ReadInConfig ∈ cfg) := by
  unfold initConfig initConfigRead
  by_cases hc : env.cfgFile = ""
  · rcases hh : env.homeDir.2 with _ | e
    · rcases hr : env.readInConfig
          { w.viper with configPaths := w.viper.configPaths ++ [env.homeDir.1],
                         configName := ".devspace", automaticEnv := true } with _ | e <;>
        simp [hc, hh, hr, World.emit, Event.isConfig]
    · simp [hc, hh, World.emit, Event.isConfig]
  · rcases hr : env.readInConfig
        { w.viper with configFile := env.cfgFile, automaticEnv := true } with _ | e <;>
      simp [hc, hr, World.emit, Event.isConfig]

/-- Two segments, the first free of `q` calls and the second free of `p`
calls, are ordered. -/
theorem orderedBefore_append (p q : Event → Bool) (a b : List Event)
    (ha : ∀ e ∈ a, q e = false) (hb : ∀ e ∈ b, p e = false) :
    orderedBefore p q (a ++ b) = true := by
  induction a with
  | nil =>
    induction b with
    | nil => rfl
    | cons e es ih =>
      have hes : ∀ x ∈ es, p x = false := fun x hx => hb x (by simp [hx])
      simp only [List.nil_append] at ih ⊢
      simp only [orderedBefore, ih hes, Bool.and_true, Bool.or_eq_true, Bool.not_eq_true',
        List.all_eq_true]
      right
      intro x hx
      exact hes x hx
  | cons e es ih =>
    have he : q e = false := ha e (by simp)
    have hes : ∀ x ∈ es, q x = false := fun x hx => ha x (by simp [hx])
    simp [orderedBefore, he, ih hes]

/-- No call of the config resolver is a call of the pre-run hook. -/
theorem isPreRun_of_isConfig (e : Event) (h : e.isConfig = true) : e.isPreRun = false := by
  cases e <;> simp_all [Event.isConfig, Event.isPreRun]

/-- Refutation of C8 as stated: on a plain invocation with no explicit config
path the calls of the config resolver, `homedir.Dir` to `log.Info`, all come
before `GetVersion`, the first call of the pre-run hook; the notifier does not
run before the config resolver. -/
theorem C8_counterexample :
    (dispatch (configEnv false "" ("/home/dev", none) true) (plainInvocation none)
        World.start).1.trace =
      [Event.ParseFlags, Event.HomedirDir, Event.AddConfigPath "/home/dev",
        Event.SetConfigName ".devspace", Event.AutomaticEnv, Event.ReadInConfig,
        Event.ConfigFileUsed, Event.Info [.str "Using config file:", .str ""],
        Event.GetVersion, Event.CommandBody]
      ∧ orderedBefore Event.isPreRun Event.isConfig
          (dispatch (configEnv false "" ("/home/dev", none) true) (plainInvocation none)
            World.start).1.trace = false := by
  decide

/-- Claim C8, amended: on every invocation that reaches a command body (the
dispatch does not stop before the hooks, the arguments validate, the config
location is resolved) the order is: flag parsing, then the Config Resolver
`initConfig`, then the root pre-run hook (silence setup first, then the
version notifier from `GetVersion` on), then the command body. -/
theorem C8_config_resolver_then_notifier (env : Env) (inv : Invocation) (w : World)
    (h1 : inv.stopBeforeHooks = none) (h2 : inv.validateArgsErr = none)
    (h3 : env.cfgFile ≠ "" ∨ env.homeDir.2 = none) :
    ∃ cfg rest w3,
      dispatch env inv w = inv.body w3
        ∧ w3.trace = w.trace ++ Event.ParseFlags ::
            (cfg ++ ((if env.Silent then [Event.SetLevel .FatalLevel] else []) ++
              Event.GetVersion :: rest) ++ [Event.CommandBody])
        ∧ (initConfig env (w.emit .ParseFlags)).1.trace = w.trace ++ Event.ParseFlags :: cfg
        ∧ Event.ReadInConfig ∈ cfg
        ∧ (∀ e ∈ cfg, e.isConfig = true)
        ∧ (∀ e ∈ rest, e.isPreRun = true)
        ∧ orderedBefore Event.isConfig Event.isPreRun
            (cfg ++ ((if env.Silent then [Event.SetLevel .FatalLevel] else []) ++
              Event.GetVersion :: rest)) = true := by
  obtain ⟨cfg, hcfg, hall, hres⟩ := initConfig_added env (w.emit .ParseFlags)
  obtain ⟨hret, hmem⟩ := hres h3
  obtain ⟨rest, hadd, -, hpre⟩ :=
    PersistentPreRun_added env (initConfig env (w.emit .ParseFlags)).1
  have htr := PersistentPreRun_trace env (initConfig env (w.emit .ParseFlags)).1
  rw [addedSince, htr, List.drop_left] at hadd
  rw [hadd] at htr
  refine ⟨cfg, rest, (PersistentPreRun env (initConfig env (w.emit .ParseFlags)).1).emit
    .CommandBody, ?_, ?_, ?_, hmem, hall, hpre, ?_⟩
  · unfold dispatch
    simp only [h1, h2]
    rcases hi : initConfig env (w.emit .ParseFlags) with ⟨w2, o⟩
    rw [hi] at hret
    simp only at hret
    subst hret
    rfl
  · have hemit : ((PersistentPreRun env (initConfig env (w.emit .ParseFlags)).1).emit
        .CommandBody).trace =
        (PersistentPreRun env (initConfig env (w.emit .ParseFlags)).1).trace ++
          [Event.CommandBody] := rfl
    rw [hemit, htr, hcfg]
    simp [World.emit]
  · rw [hcfg]
    simp [World.emit]
  · apply orderedBefore_append
    · intro e he
      exact isPreRun_of_isConfig e (hall e he)
    · intro e he
      have hp : e.isPreRun = true := by
        rcases List.mem_append.1 he with h | h
        · cases hs : env.Silent <;> simp [hs] at h
          subst h; rfl
        · rcases List.mem_cons.1 h with rfl | h
          · rfl
          · exact hpre e h
      cases e <;> simp_all [Event.isConfig, Event.isPreRun]

/-- Witness of C8 amended: a plain invocation with no explicit config path and
a home directory: the config read comes before `GetVersion`. -/
theorem C8_config_resolver_then_notifier_witness :
    ∃ cfg rest w3,
      dispatch (configEnv false "" ("/home/dev", none) true) (plainInvocation none) World.start =
          (plainInvocation none).body w3
        ∧ w3.trace = World.start.trace ++ Event.ParseFlags ::
            (cfg ++ ((if (configEnv false "" ("/home/dev", none) true).Silent
                then [Event.SetLevel .FatalLevel] else []) ++
              Event.GetVersion :: rest) ++ [Event.CommandBody])
        ∧ Event.ReadInConfig ∈ cfg := by
  obtain ⟨cfg, rest, w3, h, ht, -, hm, -⟩ :=
    C8_config_resolver_then_notifier (configEnv false "" ("/home/dev", none) true)
      (plainInvocation none) World.start rfl rfl (Or.inr rfl)
  exact ⟨cfg, rest, w3, h, ht, hm⟩

end Devspace
